import Mathlib

/-!
Shallow embedding of the TSGraph repository: the classes TSMT$GraphArc and
TSMT$GraphNode (src/GraphArc.ts, src/GraphNode.ts), the class TSMT$Graph
(src/Graph.ts) and the adapter graphFromList (src/graph-from-list.ts).

Nodes and arcs live in an explicit heap and are referenced by their index,
so a JS object reference is a heap index, and JS null/undefined references
are Option/JSVal values.  TypeScript property setters are embedded together
with their validation guards (many of them silently reject null, which is
observable behaviour); direct writes to protected fields from inside the
owning class are embedded as unguarded updates.  While loops over pointer
chains are embedded with an explicit fuel argument.
-/

set_option linter.unusedSectionVars false

namespace TSGraph

/-- Model of a JS number: NaN, one of the two infinities, or a finite value
(represented by a rational; the code under verification never does arithmetic
that could round). -/
inductive JSNum where
  | nan
  | inf
  | ninf
  | fin (q : ℚ)
deriving DecidableEq

/-- Model of a JS argument that may be undefined, null, or a proper value;
TSMT code distinguishes undefined from null in some guards. -/
inductive JSVal (α : Type) where
  | undef
  | null
  | val (x : α)
deriving DecidableEq

/-- JS isNaN on a number. -/
def jsIsNaN : JSNum → Bool
  | .nan => true
  | _ => false

/-- JS isFinite on a number. -/
def jsIsFinite : JSNum → Bool
  | .fin _ => true
  | _ => false

/-- JS comparison value >= 0 (false when the value is NaN). -/
def jsGeZero : JSNum → Bool
  | .nan => false
  | .inf => true
  | .ninf => false
  | .fin q => decide (0 ≤ q)

/-- JS Math.max(0.0, x): NaN propagates, -Infinity clips to 0. -/
def jsMax0 : JSNum → JSNum
  | .nan => .nan
  | .inf => .inf
  | .ninf => .fin 0
  | .fin q => .fin (max 0 q)

/-- TSMT$GraphArc set cost (src/GraphArc.ts line 96):
this._cost = !isNaN(value) && isFinite(value) && value >= 0 ? value : this._cost. -/
def setCost (cur value : JSNum) : JSNum :=
  if !jsIsNaN value && jsIsFinite value && jsGeZero value then value else cur

/-- A TSMT$GraphArc heap record.  The target node (_node) is stored as a plain
index: arcs are only ever constructed by TSMT$GraphNode.addArc with a non-null
target, and the node setter rejects null, so the target never becomes null. -/
structure GArc where
  target : Nat
  prev : Option Nat
  next : Option Nat
  cost : JSNum
deriving DecidableEq

/-- A TSMT$GraphNode heap record (the id, parent and depth fields are not
touched by any of the verified operations and are omitted). -/
structure GNode (V : Type) where
  val : Option V
  prev : Option Nat
  next : Option Nat
  arcList : Option Nat
  curArc : Option Nat
  marked : Bool
deriving DecidableEq

/-- Default node record, as produced by the TSMT$GraphNode constructor via
clear(): everything null / false. -/
def emptyGNode {V : Type} : GNode V :=
  { val := none, prev := none, next := none, arcList := none, curArc := none, marked := false }

/-- Junk arc used for out-of-range heap reads (such reads never happen along
the API paths that the theorems exercise). -/
def junkArc : GArc :=
  { target := 0, prev := none, next := none, cost := JSNum.fin 0 }

/-- The heap: all node and arc objects ever allocated, indexed by position. -/
structure Heap (V : Type) where
  nodes : List (GNode V)
  arcs : List GArc
deriving DecidableEq

/-- Read a node record. -/
def Heap.node {V : Type} (h : Heap V) (i : Nat) : GNode V :=
  h.nodes.getD i emptyGNode

/-- Read an arc record. -/
def Heap.arc {V : Type} (h : Heap V) (i : Nat) : GArc :=
  h.arcs.getD i junkArc

/-- Replace a node record. -/
def Heap.setNodeRec {V : Type} (h : Heap V) (i : Nat) (nd : GNode V) : Heap V :=
  { h with nodes := h.nodes.set i nd }

/-- Replace an arc record. -/
def Heap.setArcRec {V : Type} (h : Heap V) (i : Nat) (a : GArc) : Heap V :=
  { h with arcs := h.arcs.set i a }

/-- TSMT$GraphNode set marked: this._marked = value === true ? true : false;
for boolean input this stores the input. -/
def nodeSetMarked {V : Type} (h : Heap V) (i : Nat) (b : Bool) : Heap V :=
  h.setNodeRec i { h.node i with marked := b }

/-- TSMT$GraphNode set value: a null/undefined value is rejected and the prior
value retained. -/
def nodeSetVal {V : Type} (h : Heap V) (i : Nat) (v : Option V) : Heap V :=
  match v with
  | none => h
  | some x => h.setNodeRec i { h.node i with val := some x }

/-- TSMT$GraphNode set previous: a null/undefined node is rejected. -/
def nodeSetPrev {V : Type} (h : Heap V) (i : Nat) (v : Option Nat) : Heap V :=
  match v with
  | none => h
  | some x => h.setNodeRec i { h.node i with prev := some x }

/-- TSMT$GraphNode set next: a null/undefined node is rejected. -/
def nodeSetNext {V : Type} (h : Heap V) (i : Nat) (v : Option Nat) : Heap V :=
  match v with
  | none => h
  | some x => h.setNodeRec i { h.node i with next := some x }

/-- TSMT$GraphNode set arcList: a null/undefined arc is rejected. -/
def nodeSetArcList {V : Type} (h : Heap V) (i : Nat) (v : Option Nat) : Heap V :=
  match v with
  | none => h
  | some x => h.setNodeRec i { h.node i with arcList := some x }

/-- Direct write of the protected field _arcList from inside TSMT$GraphNode
(e.g. TSMT$GraphNode.removeArc updates this._arcList without a guard). -/
def nodeWriteArcList {V : Type} (h : Heap V) (i : Nat) (v : Option Nat) : Heap V :=
  h.setNodeRec i { h.node i with arcList := v }

/-- Direct write of the protected field _curArc from inside TSMT$GraphNode. -/
def nodeWriteCurArc {V : Type} (h : Heap V) (i : Nat) (v : Option Nat) : Heap V :=
  h.setNodeRec i { h.node i with curArc := v }

/-- TSMT$GraphArc set previous: a null/undefined arc is rejected. -/
def arcSetPrev {V : Type} (h : Heap V) (i : Nat) (v : Option Nat) : Heap V :=
  match v with
  | none => h
  | some x => h.setArcRec i { h.arc i with prev := some x }

/-- TSMT$GraphArc set next: a null/undefined arc is rejected.  This guard is
the reason several removal routines silently fail to detach tail arcs. -/
def arcSetNext {V : Type} (h : Heap V) (i : Nat) (v : Option Nat) : Heap V :=
  match v with
  | none => h
  | some x => h.setArcRec i { h.arc i with next := some x }

/-- TSMT$GraphArc set node: a null/undefined node is rejected. -/
def arcSetNode {V : Type} (h : Heap V) (i : Nat) (v : Option Nat) : Heap V :=
  match v with
  | none => h
  | some x => h.setArcRec i { h.arc i with target := x }

/-- TSMT$GraphArc assignment arc.cost = value at the record level
(used to state the cost-validation property). -/
def arcAssignCost (a : GArc) (value : JSNum) : GArc :=
  { a with cost := setCost a.cost value }

section NodeOps

variable {V : Type} [DecidableEq V]

/-- Loop of TSMT$GraphNode.getArc: scan the arc list for the first arc whose
node equals the target (reference equality). -/
def getArcLoop (h : Heap V) (t : Nat) : Nat → Option Nat → Option Nat
  | 0, _ => none
  | _, none => none
  | fuel + 1, some a =>
    if (h.arc a).target = t then some a else getArcLoop h t fuel ((h.arc a).next)

/-- TSMT$GraphNode.getArc: null target gives null; otherwise first matching
arc of this node's arc list. -/
def getArc (h : Heap V) (n : Nat) (t : Option Nat) (fuel : Nat) : Option Nat :=
  match t with
  | none => none
  | some t => getArcLoop h t fuel ((h.node n).arcList)

/-- Loop of TSMT$GraphNode.arcCount: count the arcs reachable by next links. -/
def arcCountLoop (h : Heap V) : Nat → Option Nat → Nat
  | 0, _ => 0
  | _, none => 0
  | fuel + 1, some a => 1 + arcCountLoop h fuel ((h.arc a).next)

/-- TSMT$GraphNode.arcCount. -/
def arcCount (h : Heap V) (n : Nat) (fuel : Nat) : Nat :=
  arcCountLoop h fuel ((h.node n).arcList)

/-- Helper: targets of the arcs reachable from a head pointer, in list order
(the iteration order of the arc list). -/
def arcTargetsLoop (h : Heap V) : Nat → Option Nat → List Nat
  | 0, _ => []
  | _, none => []
  | fuel + 1, some a => (h.arc a).target :: arcTargetsLoop h fuel ((h.arc a).next)

/-- TSMT$GraphNode.addArc: allocate a new arc with clipped cost and append it
to this node's arc list using the tracked _curArc pointer.  Direct field
writes for _arcList/_curArc, property setters for the arc links. -/
def addArc (h : Heap V) (n : Nat) (target : Option Nat) (cost : JSNum) : Heap V :=
  match target with
  | none => h
  | some t =>
    let c := jsMax0 cost
    let aid := h.arcs.length
    let h1 : Heap V := { h with arcs := h.arcs ++ [{ target := t, prev := none, next := none, cost := c }] }
    match (h1.node n).arcList with
    | none => nodeWriteCurArc (nodeWriteArcList h1 n (some aid)) n (some aid)
    | some _ =>
      let cur := (h1.node n).curArc
      let h2 := arcSetPrev h1 aid cur
      match cur with
      | some ca => nodeWriteCurArc (arcSetNext h2 ca (some aid)) n (some aid)
      | none => h2

/-- TSMT$GraphNode.removeArc: find the first arc to the target and splice it
out.  The splice writes go through the null-rejecting arc setters; only the
head update this._arcList = arc.next is a direct field write. -/
def removeArc (h : Heap V) (n : Nat) (t : Option Nat) (fuel : Nat) : Heap V × Bool :=
  match t with
  | none => (h, false)
  | some _ =>
    match getArc h n t fuel with
    | none => (h, false)
    | some a =>
      let h1 := match (h.arc a).prev with
        | some p => arcSetNext h p ((h.arc a).next)
        | none => h
      let h2 := match (h1.arc a).next with
        | some nx => arcSetPrev h1 nx ((h1.arc a).prev)
        | none => h1
      let h3 := if (h2.node n).arcList = some a then nodeWriteArcList h2 n ((h2.arc a).next) else h2
      (h3, true)

end NodeOps

section GraphOps

variable {V : Type} [DecidableEq V]

/-- The TSMT$Graph instance state: the heap of node/arc objects plus the
protected fields _size, _nodeList, _curNode.  The scratch buffers _struct and
_traversal are reset at the start of each call that uses them and are modelled
as locals of the traversal functions. -/
structure GraphState (V : Type) where
  heap : Heap V
  size : Int
  nodeList : Option Nat
  curNode : Option Nat
deriving DecidableEq

/-- A freshly constructed TSMT$Graph (the constructor calls clear()). -/
def emptyGraph (V : Type) : GraphState V :=
  { heap := { nodes := [], arcs := [] }, size := 0, nodeList := none, curNode := none }

/-- Allocate a new TSMT$GraphNode with the given value (the constructor
clears the node, then assigns the optional data). -/
def newNode (g : GraphState V) (v : Option V) : GraphState V × Nat :=
  let nid := g.heap.nodes.length
  ({ g with heap := { g.heap with nodes := g.heap.nodes ++ [{ (emptyGNode : GNode V) with val := v }] } }, nid)

/-- TSMT$Graph.addNode.  The guard is the source's
if (node === undefined && node == null) return; — with && — so only
undefined is filtered out; a null argument falls through, increments _size
and, on a non-empty graph, throws when node.previous is assigned (the state
at the throw is the incremented size). -/
def addNode (g : GraphState V) (x : JSVal Nat) : GraphState V :=
  match x with
  | .undef => g
  | .null =>
    let g1 := { g with size := g.size + 1 }
    match g1.nodeList with
    | none => { g1 with nodeList := none, curNode := none }
    | some _ => g1
  | .val n =>
    let g1 := { g with size := g.size + 1 }
    match g1.nodeList with
    | none => { g1 with nodeList := some n, curNode := some n }
    | some _ =>
      let h1 := nodeSetPrev g1.heap n g1.curNode
      match g1.curNode with
      | some c => { g1 with heap := nodeSetNext h1 c (some n), curNode := some n }
      | none => { g1 with heap := h1 }

/-- One iteration of the inner while loop of TSMT$Graph.__unlink, at arc a1
of node1's arc list: hook = arc1.next is captured first; if arc1 points back
to node it is spliced out — arc1.previous.next = hook, hook.previous =
arc1.previous, and the node1.arcList head update, all through the
null-rejecting setters. -/
def unlinkInnerStep (node node1 a1 : Nat) (h : Heap V) : Heap V :=
  let hook := (h.arc a1).next
  if (h.arc a1).target = node then
    let h1 := match (h.arc a1).prev with
      | some p => arcSetNext h p hook
      | none => h
    let h2 := match hook with
      | some hk => arcSetPrev h1 hk ((h1.arc a1).prev)
      | none => h1
    if (h2.node node1).arcList = some a1 then nodeSetArcList h2 node1 hook else h2
  else h

/-- Inner loop of TSMT$Graph.__unlink: walk the arc list of node1 (a target
of one of node's arcs) applying the step to every arc; the walk continues
from the hook captured before the step. -/
def unlinkInner (node node1 : Nat) : Nat → Heap V → Option Nat → Heap V
  | 0, h, _ => h
  | _, h, none => h
  | fuel + 1, h, some a1 =>
    unlinkInner node node1 fuel (unlinkInnerStep node node1 a1 h) ((h.arc a1).next)

/-- One iteration of the outer while loop of TSMT$Graph.__unlink, at arc a0
of node's own arc list: node1 = arc0.node; clean node1's back-arcs with the
inner loop; then hook = arc0.next is captured and arc0 is spliced out of
node's arc list through the null-rejecting setters.  Returns the new heap
and the captured hook (the source advances arc0 = hook without re-reading). -/
def unlinkOuterStep (node innerFuel a0 : Nat) (h : Heap V) : Heap V × Option Nat :=
  let node1 := (h.arc a0).target
  let h1 := unlinkInner node node1 innerFuel h ((h.node node1).arcList)
  let hook := (h1.arc a0).next
  let h2 := match (h1.arc a0).prev with
    | some p => arcSetNext h1 p hook
    | none => h1
  let h3 := match hook with
    | some hk => arcSetPrev h2 hk ((h2.arc a0).prev)
    | none => h2
  let h4 := if (h3.node node).arcList = some a0 then nodeSetArcList h3 node hook else h3
  (h4, hook)

/-- Outer loop of TSMT$Graph.__unlink.  The second component collects, as a
ghost output, the target node of each walked arc (the nodes in which the
inner loop attempts back-arc removal); it does not influence the heap. -/
def unlinkOuter (node : Nat) (innerFuel : Nat) : Nat → Heap V → Option Nat → Heap V × List Nat
  | 0, h, _ => (h, [])
  | _, h, none => (h, [])
  | fuel + 1, h, some a0 =>
    let s := unlinkOuterStep node innerFuel a0 h
    let r := unlinkOuter node innerFuel fuel s.1 s.2
    (r.1, (h.arc a0).target :: r.2)

/-- TSMT$Graph.__unlink: the outer loop followed by node.arcList = null,
which goes through the null-rejecting arcList setter (a no-op). -/
def unlink (node : Nat) (fuel : Nat) (h : Heap V) : Heap V × List Nat :=
  let r := unlinkOuter node fuel fuel h ((h.node node).arcList)
  (nodeSetArcList r.1 node none, r.2)

/-- The node-list splice of TSMT$Graph.removeNode:
if (node.previous != null) node.previous.next = node.next;
if (node.next != null) node.next.previous = node.previous;
both assignments go through the null-rejecting node setters. -/
def removeNodeSplice (h : Heap V) (n : Nat) : Heap V :=
  let h1 := match (h.node n).prev with
    | some p => nodeSetNext h p ((h.node n).next)
    | none => h
  match (h1.node n).next with
  | some nx => nodeSetPrev h1 nx ((h1.node n).prev)
  | none => h1

/-- TSMT$Graph.removeNode: guard uses || so both undefined and null are
no-ops; otherwise __unlink, then splice the node out of the node list, then
update the _nodeList head (a direct field write) and decrement _size. -/
def removeNode (g : GraphState V) (x : JSVal Nat) (fuel : Nat) : GraphState V :=
  match x with
  | .undef => g
  | .null => g
  | .val n =>
    let h2 := removeNodeSplice (unlink n fuel g.heap).1 n
    let g1 := { g with heap := h2 }
    let g2 := if g1.nodeList = some n then { g1 with nodeList := (h2.node n).next } else g1
    { g2 with size := g2.size - 1 }

/-- Loop of TSMT$Graph.remove: walk the whole node list; every node whose
value equals x is __unlinked, its fields are assigned null (all rejected by
the setters), _size is decremented and found is set. -/
def removeLoop (x : V) (ufuel : Nat) : Nat → GraphState V → Bool → Option Nat → GraphState V × Bool
  | 0, g, found, _ => (g, found)
  | _, g, found, none => (g, found)
  | fuel + 1, g, found, some node =>
    let next := (g.heap.node node).next
    if (g.heap.node node).val = some x then
      let h := (unlink node ufuel g.heap).1
      let h1 := nodeSetVal h node none
      let h2 := nodeSetNext h1 node none
      let h3 := nodeSetPrev h2 node none
      let h4 := nodeSetArcList h3 node none
      removeLoop x ufuel fuel { g with heap := h4, size := g.size - 1 } true next
    else
      removeLoop x ufuel fuel g found next

/-- TSMT$Graph.remove. -/
def remove (g : GraphState V) (x : V) (fuel : Nat) : GraphState V × Bool :=
  removeLoop x fuel fuel g false g.nodeList

/-- Loop of TSMT$Graph.toArray: push every node of the node list. -/
def toArrayLoop (h : Heap V) : Nat → Option Nat → List Nat
  | 0, _ => []
  | _, none => []
  | fuel + 1, some n => n :: toArrayLoop h fuel ((h.node n).next)

/-- TSMT$Graph.toArray. -/
def toArray (g : GraphState V) (fuel : Nat) : List Nat :=
  toArrayLoop g.heap fuel g.nodeList

/-- Loop of TSMT$Graph.findNode: first node whose value equals x
(node.value == value; null values never equal a proper value). -/
def findNodeLoop (h : Heap V) (x : V) : Nat → Option Nat → Option Nat
  | 0, _ => none
  | _, none => none
  | fuel + 1, some n =>
    if (h.node n).val = some x then some n else findNodeLoop h x fuel ((h.node n).next)

/-- TSMT$Graph.findNode. -/
def findNode (g : GraphState V) (x : V) (fuel : Nat) : Option Nat :=
  findNodeLoop g.heap x fuel g.nodeList

/-- Membership walk of TSMT$Graph.addEdge: scan the node list for a node that
is (reference-)identical to the argument; a null argument matches nothing. -/
def nodeListHasLoop (h : Heap V) (t : Option Nat) : Nat → Option Nat → Bool
  | 0, _ => false
  | _, none => false
  | fuel + 1, some w =>
    if some w = t then true else nodeListHasLoop h t fuel ((h.node w).next)

/-- TSMT$Graph.addEdge: clip the cost, verify that source and target are both
in the node list (two linear scans), then sourceNode.addArc(target, cost). -/
def addEdge (g : GraphState V) (source target : Option Nat) (cost : JSNum) (fuel : Nat) : GraphState V :=
  let c := jsMax0 cost
  if nodeListHasLoop g.heap source fuel g.nodeList then
    if nodeListHasLoop g.heap target fuel g.nodeList then
      match source, target with
      | some s, some t => { g with heap := addArc g.heap s (some t) c }
      | _, _ => g
    else g
  else g

/-- Inner loop of TSMT$Graph.clear: for each arc of a node the code executes
arc.next = arc.previous = null and arc.node = null; all three writes go
through the null-rejecting arc setters. -/
def clearArcLoop : Nat → Heap V → Option Nat → Heap V
  | 0, h, _ => h
  | _, h, none => h
  | fuel + 1, h, some a =>
    let nextArc := (h.arc a).next
    let h1 := arcSetPrev h a none
    let h2 := arcSetNext h1 a none
    let h3 := arcSetNode h2 a none
    clearArcLoop fuel h3 nextArc

/-- Outer loop of TSMT$Graph.clear: for each node, clear its arcs, then
assign node.value = null, node.next = node.previous = null,
node.arcList = null; all through the null-rejecting node setters. -/
def clearNodeLoop (afuel : Nat) : Nat → Heap V → Option Nat → Heap V
  | 0, h, _ => h
  | _, h, none => h
  | fuel + 1, h, some n =>
    let next := (h.node n).next
    let h1 := clearArcLoop afuel h ((h.node n).arcList)
    let h2 := nodeSetVal h1 n (none : Option V)
    let h3 := nodeSetPrev h2 n none
    let h4 := nodeSetNext h3 n none
    let h5 := nodeSetArcList h4 n none
    clearNodeLoop afuel fuel h5 next

/-- TSMT$Graph.clear: walk and null out nodes and arcs, then reset
_nodeList, _curNode and _size (direct field writes).  The _struct and
_traversal buffer resets are local to the traversals here. -/
def clear (g : GraphState V) (fuel : Nat) : GraphState V :=
  let h := clearNodeLoop fuel fuel g.heap g.nodeList
  { heap := h, size := 0, nodeList := none, curNode := none }

end GraphOps

section Traversal

variable {V : Type} [DecidableEq V]

/-- The startNode argument of DFS/BFS: absent (undefined or null, the
default), a direct TSMT$GraphNode reference, or any other value, which is
resolved through findNode. -/
inductive StartArg (V : Type) where
  | nullish
  | nodeRef (n : Nat)
  | value (v : V)
deriving DecidableEq

/-- The startNode resolution shared by DFS and BFS (src/Graph.ts lines
492-503 and 568-579). -/
def resolveStart (g : GraphState V) (s : StartArg V) (fuel : Nat) : Option Nat :=
  match s with
  | .nullish => g.nodeList
  | .nodeRef n => some n
  | .value v => findNode g v fuel

/-- The mark-resetting loop of DFS and BFS (src/Graph.ts lines 511-515 and
587-591): it starts at the resolved start node — not at _nodeList — and
follows next links to the end of the node list. -/
def clearMarksFrom : Nat → Heap V → Option Nat → Heap V
  | 0, h, _ => h
  | _, h, none => h
  | fuel + 1, h, some n =>
    let h1 := nodeSetMarked h n false
    clearMarksFrom fuel h1 ((h1.node n).next)

/-- The while loop over arcs inside TSMT$Graph.__DFSTraversal, parametrised
by the recursive visit (which is the traversal at one less recursion fuel):
node = arc.node; if (!node.marked) recurse; arc = arc.next. -/
def dfsArcLoop (visit : Heap V → Nat → Heap V × List Nat) :
    Nat → Heap V → Option Nat → Heap V × List Nat
  | _, h, none => (h, [])
  | 0, h, some _ => (h, [])
  | fuel + 1, h, some a =>
    let m := (h.arc a).target
    let r := if (h.node m).marked then (h, []) else visit h m
    let r2 := dfsArcLoop visit fuel r.1 ((r.1.arc a).next)
    (r2.1, r.2 ++ r2.2)

/-- TSMT$Graph.__DFSTraversal: mark the node, push it onto _traversal, then
walk its arcs recursing into unmarked targets.  The recursion carries fuel;
the arc walk is bounded by the (static) number of allocated arcs. -/
def DFSTraversal : Nat → Heap V → Nat → Heap V × List Nat
  | 0, h, _ => (h, [])
  | fuel + 1, h, n =>
    let h1 := nodeSetMarked h n true
    let r := dfsArcLoop (DFSTraversal fuel) h1.arcs.length h1 ((h1.node n).arcList)
    (r.1, n :: r.2)

/-- TSMT$Graph.DFS: outlier checks on _size, startNode resolution, the
mark-resetting loop from the resolved root, then __DFSTraversal.  Returns
the updated graph state together with the _traversal contents (entries are
pushed node references, hence some; the one-node outlier pushes _nodeList
itself, which is how a null can appear). -/
def DFS (g : GraphState V) (s : StartArg V) (fuel : Nat) : GraphState V × List (Option Nat) :=
  if g.size = 0 then (g, [])
  else if g.size = 1 then (g, [g.nodeList])
  else
    match resolveStart g s fuel with
    | none => (g, [])
    | some root =>
      let h1 := clearMarksFrom fuel g.heap (some root)
      let r := DFSTraversal fuel h1 root
      ({ g with heap := r.1 }, r.2.map Option.some)

/-- The arc walk inside the queue loop of TSMT$Graph.__BFSTraversal: each
unmarked target is marked and pushed onto the queue. -/
def bfsArcLoop : Nat → Heap V → Option Nat → List Nat → Heap V × List Nat
  | _, h, none, q => (h, q)
  | 0, h, some _, q => (h, q)
  | fuel + 1, h, some a, q =>
    let m := (h.arc a).target
    if (h.node m).marked then bfsArcLoop fuel h ((h.arc a).next) q
    else
      let h1 := nodeSetMarked h m true
      bfsArcLoop fuel h1 ((h1.arc a).next) (q ++ [m])

/-- The while (this._struct.length > 0) loop of TSMT$Graph.__BFSTraversal:
dequeue with shift, push onto _traversal, enqueue unmarked arc targets. -/
def bfsQueueLoop (afuel : Nat) : Nat → Heap V → List Nat → List Nat → Heap V × List Nat
  | 0, h, _, acc => (h, acc)
  | fuel + 1, h, q, acc =>
    match q with
    | [] => (h, acc)
    | n :: rest =>
      let acc1 := acc ++ [n]
      let r := bfsArcLoop afuel h ((h.node n).arcList) rest
      bfsQueueLoop afuel fuel r.1 r.2 acc1

/-- TSMT$Graph.__BFSTraversal: mark the start node, enqueue it, run the
queue loop. -/
def BFSTraversal (fuel : Nat) (h : Heap V) (n : Nat) : Heap V × List Nat :=
  let h1 := nodeSetMarked h n true
  bfsQueueLoop h1.arcs.length fuel h1 [n] []

/-- TSMT$Graph.BFS: same outliers, resolution and mark-resetting loop as
DFS, then __BFSTraversal. -/
def BFS (g : GraphState V) (s : StartArg V) (fuel : Nat) : GraphState V × List (Option Nat) :=
  if g.size = 0 then (g, [])
  else if g.size = 1 then (g, [g.nodeList])
  else
    match resolveStart g s fuel with
    | none => (g, [])
    | some root =>
      let h1 := clearMarksFrom fuel g.heap (some root)
      let r := BFSTraversal fuel h1 root
      ({ g with heap := r.1 }, r.2.map Option.some)

end Traversal

section FromList

/-- The IGraphNode shape of src/GraphList.ts: a string id and an optional
value (hasOwnProperty is modelled by the Option). -/
structure IGraphNode where
  id : String
  value : Option String
deriving DecidableEq

/-- The IGraphEdge shape of src/GraphList.ts: one source id, and either a
single target id or an array of target ids (the optional edge id is unused). -/
structure IGraphEdge where
  src : String
  toIds : String ⊕ List String
deriving DecidableEq

/-- The GraphList shape of src/GraphList.ts (the optional id/desc/title
metadata fields are unused by graphFromList and omitted). -/
structure GraphList where
  nodes : List IGraphNode
  edges : List IGraphEdge
deriving DecidableEq

/-- The Record<string, TSMT$GraphNode> cache of graphFromList: assignment
overwrites, lookup of a missing key is undefined. -/
def cacheInsert (c : List (String × Nat)) (k : String) (v : Nat) : List (String × Nat) :=
  (k, v) :: c.filter (fun p => p.1 ≠ k)

/-- Cache lookup (undefined when the id was never inserted). -/
def cacheLookup (c : List (String × Nat)) (k : String) : Option Nat :=
  (c.find? (fun p => p.1 = k)).map Prod.snd

/-- The nodes.forEach body of graphFromList: construct a node, assign its
value (the declared value when the field is present, else the id — both are
proper strings, so the value setter accepts them), cache it under its id and
graph.addNode it. -/
def fromListAddNode (acc : GraphState String × List (String × Nat)) (nd : IGraphNode) :
    GraphState String × List (String × Nat) :=
  let r := newNode acc.1 (some (nd.value.getD nd.id))
  (addNode r.1 (.val r.2), cacheInsert acc.2 nd.id r.2)

/-- The edges.forEach body of graphFromList: resolve the from node in the
cache, then one graph.addEdge call per declared target (a single call for a
string target, one call per element for an array target).  The second
component counts the addEdge calls made so far (a ghost counter; it does not
influence the graph). -/
def fromListAddEdge (cache : List (String × Nat)) (acc : GraphState String × Nat)
    (ed : IGraphEdge) : GraphState String × Nat :=
  let fromRef := cacheLookup cache ed.src
  match ed.toIds with
  | .inl toId =>
    (addEdge acc.1 fromRef (cacheLookup cache toId) (JSNum.fin 1) acc.1.heap.nodes.length, acc.2 + 1)
  | .inr ids =>
    ids.foldl
      (fun acc2 toId =>
        (addEdge acc2.1 fromRef (cacheLookup cache toId) (JSNum.fin 1) acc2.1.heap.nodes.length, acc2.2 + 1))
      acc

/-- graphFromList (src/graph-from-list.ts): an absent description yields the
freshly constructed empty graph; otherwise all nodes are added, then every
edge produces its addEdge calls.  The second component is the ghost count of
addEdge calls. -/
def graphFromList (data : Option GraphList) : GraphState String × Nat :=
  match data with
  | none => (emptyGraph String, 0)
  | some data =>
    let r := data.nodes.foldl fromListAddNode (emptyGraph String, [])
    data.edges.foldl (fromListAddEdge r.2) (r.1, 0)

end FromList

section Fixtures

/-- Create a TSMT$GraphNode with the given value and graph.addNode it. -/
def addValueNode {V : Type} [DecidableEq V] (g : GraphState V) (v : V) : GraphState V :=
  let r := newNode g (some v)
  addNode r.1 (.val r.2)

/-- Heap for the removeArc scenario: three fresh nodes, then
node 0 gets arcs to node 1 and node 2 in that order (addArc appends). -/
def c1Heap : Heap Nat :=
  let h : Heap Nat := { nodes := [emptyGNode, emptyGNode, emptyGNode], arcs := [] }
  addArc (addArc h 0 (some 1) (JSNum.fin 1)) 0 (some 2) (JSNum.fin 1)

/-- Two-node graph with values 1 and 2 and mutual edges (0 → 1 and 1 → 0),
used for the stale-marks scenario. -/
def c2Graph : GraphState Nat :=
  let g := addValueNode (addValueNode (emptyGraph Nat) 1) 2
  addEdge (addEdge g (some 0) (some 1) (JSNum.fin 1) 10) (some 1) (some 0) (JSNum.fin 1) 10

/-- One-node graph holding value 1, used for the remove scenario. -/
def c3Graph : GraphState Nat :=
  addValueNode (emptyGraph Nat) 1

/-- Two-node graph with a single one-way edge 0 → 1, used for the
removeNode dangling-arc scenario and the clear scenario. -/
def c4Graph : GraphState Nat :=
  addEdge (addValueNode (addValueNode (emptyGraph Nat) 1) 2) (some 0) (some 1) (JSNum.fin 1) 10

/-- The fixed scenario graph: nodes R,A,B,C,D,E,F,G inserted in that order
(encoded as values 0..7, which coincide with the heap ids), then the edges
A→D, D→G, R→A, R→B, R→C, B→E, C→F added in that order. -/
def c5Graph : GraphState Nat :=
  let g := [0, 1, 2, 3, 4, 5, 6, 7].foldl addValueNode (emptyGraph Nat)
  [(1, 4), (4, 7), (0, 1), (0, 2), (0, 3), (2, 5), (3, 6)].foldl
    (fun g e => addEdge g (some e.1) (some e.2) (JSNum.fin 1) 20) g

end Fixtures

section Invariants

variable {V : Type} [DecidableEq V]

/-- Mark monotonicity: every node marked in h is still marked in h forward. -/
def MarkLe (h h' : Heap V) : Prop :=
  ∀ m, (h.node m).marked = true → (h'.node m).marked = true

/-- Data-model invariant of heaps built through the API: at least one node
exists and every allocated arc's target is an allocated node (TSMT$GraphArc
instances are only created by addArc from a live node reference). -/
def WFHeap (h : Heap V) : Prop :=
  0 < h.nodes.length ∧ ∀ a, a < h.arcs.length → (h.arc a).target < h.nodes.length

instance wfHeapDecidable (h : Heap V) : Decidable (WFHeap h) :=
  inferInstanceAs
    (Decidable (0 < h.nodes.length ∧ ∀ a, a < h.arcs.length → (h.arc a).target < h.nodes.length))

end Invariants

section HeapLemmas

variable {V : Type} [DecidableEq V]

theorem heap_node_set (h : Heap V) (i : Nat) (nd : GNode V) (m : Nat) :
    (h.setNodeRec i nd).node m = if i = m ∧ i < h.nodes.length then nd else h.node m := by
  simp only [Heap.setNodeRec, Heap.node, List.getD_eq_getElem?_getD, List.getElem?_set]
  by_cases him : i = m
  · subst him
    by_cases hlen : i < h.nodes.length
    · simp [hlen]
    · simp [hlen, List.getElem?_eq_none (Nat.le_of_not_lt hlen)]
  · simp [him]

theorem heap_arc_set (h : Heap V) (i : Nat) (a : GArc) (m : Nat) :
    (h.setArcRec i a).arc m = if i = m ∧ i < h.arcs.length then a else h.arc m := by
  simp only [Heap.setArcRec, Heap.arc, List.getD_eq_getElem?_getD, List.getElem?_set]
  by_cases him : i = m
  · subst him
    by_cases hlen : i < h.arcs.length
    · simp [hlen]
    · simp [hlen, List.getElem?_eq_none (Nat.le_of_not_lt hlen)]
  · simp [him]

theorem node_setArcRec (h : Heap V) (i : Nat) (a : GArc) (m : Nat) :
    (h.setArcRec i a).node m = h.node m := rfl

theorem arc_setNodeRec (h : Heap V) (i : Nat) (nd : GNode V) (m : Nat) :
    (h.setNodeRec i nd).arc m = h.arc m := rfl

theorem node_arcSetNext (h : Heap V) (i : Nat) (v : Option Nat) (m : Nat) :
    (arcSetNext h i v).node m = h.node m := by
  cases v <;> rfl

theorem node_arcSetPrev (h : Heap V) (i : Nat) (v : Option Nat) (m : Nat) :
    (arcSetPrev h i v).node m = h.node m := by
  cases v <;> rfl

theorem node_arcSetNode (h : Heap V) (i : Nat) (v : Option Nat) (m : Nat) :
    (arcSetNode h i v).node m = h.node m := by
  cases v <;> rfl

theorem arc_nodeSetMarked (h : Heap V) (i : Nat) (b : Bool) (m : Nat) :
    (nodeSetMarked h i b).arc m = h.arc m := rfl

theorem arcs_nodeSetMarked (h : Heap V) (i : Nat) (b : Bool) :
    (nodeSetMarked h i b).arcs = h.arcs := rfl

theorem nodesLength_nodeSetMarked (h : Heap V) (i : Nat) (b : Bool) :
    (nodeSetMarked h i b).nodes.length = h.nodes.length := by
  simp [nodeSetMarked, Heap.setNodeRec]

theorem node_nodeSetMarked (h : Heap V) (i : Nat) (b : Bool) (m : Nat) :
    (nodeSetMarked h i b).node m =
      if i = m ∧ i < h.nodes.length then { h.node i with marked := b } else h.node m := by
  simp [nodeSetMarked, heap_node_set]

theorem marked_nodeSetMarked_self (h : Heap V) (i : Nat) (b : Bool) (hi : i < h.nodes.length) :
    ((nodeSetMarked h i b).node i).marked = b := by
  simp [node_nodeSetMarked, hi]

theorem marked_nodeSetMarked_other (h : Heap V) (i : Nat) (b : Bool) (m : Nat) (hne : i ≠ m) :
    ((nodeSetMarked h i b).node m).marked = (h.node m).marked := by
  simp [node_nodeSetMarked, hne]

theorem nodeSetMarked_of_out_of_range (h : Heap V) (i : Nat) (b : Bool)
    (hi : ¬ i < h.nodes.length) : nodeSetMarked h i b = h := by
  simp only [nodeSetMarked, Heap.setNodeRec]
  rw [List.set_eq_of_length_le (Nat.le_of_not_lt hi)]

theorem node_out_of_range (h : Heap V) (m : Nat) (hm : ¬ m < h.nodes.length) :
    h.node m = emptyGNode := by
  simp [Heap.node, List.getD_eq_getElem?_getD, List.getElem?_eq_none (Nat.le_of_not_lt hm)]

theorem markLe_refl (h : Heap V) : MarkLe h h := fun _ hm => hm

theorem markLe_trans {h1 h2 h3 : Heap V} (a : MarkLe h1 h2) (b : MarkLe h2 h3) :
    MarkLe h1 h3 := fun m hm => b m (a m hm)

theorem markLe_setMarkedTrue (h : Heap V) (i : Nat) : MarkLe h (nodeSetMarked h i true) := by
  intro m hm
  rw [node_nodeSetMarked]
  split
  · next hc =>
    obtain ⟨hi, _⟩ := hc
    subst hi
    rfl
  · exact hm

theorem wf_nodeSetMarked (h : Heap V) (i : Nat) (b : Bool) (hw : WFHeap h) :
    WFHeap (nodeSetMarked h i b) := by
  obtain ⟨h0, ht⟩ := hw
  refine ⟨by rw [nodesLength_nodeSetMarked]; exact h0, ?_⟩
  intro a ha
  rw [arc_nodeSetMarked, nodesLength_nodeSetMarked]
  exact ht a ha

theorem wf_target_lt {h : Heap V} (hw : WFHeap h) (a : Nat) :
    (h.arc a).target < h.nodes.length := by
  by_cases ha : a < h.arcs.length
  · exact hw.2 a ha
  · have : h.arc a = junkArc := by
      simp [Heap.arc, List.getD_eq_getElem?_getD, List.getElem?_eq_none (Nat.le_of_not_lt ha)]
    rw [this]
    exact hw.1

end HeapLemmas

/-- C1: TSMT$GraphNode.removeArc on the tail arc of a two-arc list returns
true but leaves arcCount at 2 and the arc list unchanged: the splice
arc.previous.next = arc.next sends null into the null-rejecting next setter,
so the predecessor still points at the removed arc.  The claimed decrement
of arcCount by exactly one fails whenever the removed arc is the tail of a
list with at least two arcs. -/
theorem removeArc_tail_leaves_arcCount_unchanged :
    (removeArc c1Heap 0 (some 2) 10).2 = true ∧
    arcCount c1Heap 0 10 = 2 ∧
    arcCount (removeArc c1Heap 0 (some 2) 10).1 0 10 = 2 ∧
    arcTargetsLoop (removeArc c1Heap 0 (some 2) 10).1 10
      (((removeArc c1Heap 0 (some 2) 10).1).node 0).arcList = [1, 2] := by
  decide

/-- C2: the mark-resetting loop of DFS/BFS starts at the resolved start node
and only walks forward through the node list, so marks are not reset
graph-wide.  After DFS from node 0 (value 1) has marked both nodes of
c2Graph, a DFS or BFS from node 1 (value 2) first resets only node 1's mark
— node 0 is still marked when the traversal begins — and therefore returns
[node 1] even though node 0 is reachable through the arc 1 → 0. -/
theorem DFS_stale_marks_skip_reachable_node :
    (DFS c2Graph (.value 1) 10).2 = [some 0, some 1] ∧
    ((DFS c2Graph (.value 1) 10).1.heap.node 0).marked = true ∧
    ((clearMarksFrom 10 (DFS c2Graph (.value 1) 10).1.heap (some 1)).node 0).marked = true ∧
    getArc (DFS c2Graph (.value 1) 10).1.heap 1 (some 0) 10 = some 1 ∧
    (DFS (DFS c2Graph (.value 1) 10).1 (.value 2) 10).2 = [some 1] ∧
    (BFS (DFS c2Graph (.value 1) 10).1 (.value 2) 10).2 = [some 1] := by
  decide

/-- C3: TSMT$Graph.remove decrements _size but never splices the node out of
the node list (and its null assignments are all rejected by the setters), so
after remove(1) on a one-node graph the size is 0 while toArray() still
returns the removed node: size no longer equals toArray().length. -/
theorem remove_breaks_size_toArray_invariant :
    c3Graph.size = 1 ∧ toArray c3Graph 10 = [0] ∧
    (remove c3Graph 1 10).2 = true ∧
    (remove c3Graph 1 10).1.size = 0 ∧
    toArray (remove c3Graph 1 10).1 10 = [0] := by
  decide

/-- C4 counterexample: in the two-node graph c4Graph with the one-way arc
0 → 1, removeNode on node 1 leaves node 0 (still in the graph) owning its
arc whose target is node 1: __unlink only visits nodes that node 1 points
to, which does not include node 0.  (The node-list splice also fails here —
node 1 is the tail, so node 0's next setter rejects null — which is why
toArray still lists both nodes.) -/
theorem removeNode_leaves_dangling_incoming_arc :
    toArray (removeNode c4Graph (.val 1) 10) 10 = [0, 1] ∧
    ((removeNode c4Graph (.val 1) 10).heap.node 0).arcList = some 0 ∧
    ((removeNode c4Graph (.val 1) 10).heap.arc 0).target = 1 ∧
    getArc (removeNode c4Graph (.val 1) 10).heap 0 (some 1) 10 = some 0 := by
  decide

/-- C5: on the fixed scenario graph (nodes R,A,B,C,D,E,F,G as 0..7, edges
A→D, D→G, R→A, R→B, R→C, B→E, C→F in that order), DFS from R yields
[R,A,D,G,B,E,C,F] and BFS from R yields [R,A,B,C,D,E,F,G]. -/
theorem dfs_bfs_fixed_scenario :
    (DFS c5Graph (.value 0) 20).2 =
      [some 0, some 1, some 4, some 7, some 2, some 5, some 3, some 6] ∧
    (BFS c5Graph (.value 0) 20).2 =
      [some 0, some 1, some 2, some 3, some 4, some 5, some 6, some 7] := by
  decide

/-- C6: TSMT$Graph.clear resets the container fields (_size, _nodeList,
_curNode) but every nulling write it performs on nodes and arcs goes through
a null-rejecting setter: the heap after clear() is identical to the heap
before, so formerly-owned nodes keep their values, links and arc-list heads
and arcs keep their targets and links. -/
theorem clear_nulling_writes_are_rejected :
    (clear c4Graph 10).size = 0 ∧
    (clear c4Graph 10).nodeList = none ∧
    (clear c4Graph 10).curNode = none ∧
    (clear c4Graph 10).heap = c4Graph.heap ∧
    ((clear c4Graph 10).heap.node 0).val = some 1 ∧
    ((clear c4Graph 10).heap.node 0).next = some 1 ∧
    ((clear c4Graph 10).heap.node 0).arcList = some 0 ∧
    ((clear c4Graph 10).heap.arc 0).target = 1 := by
  decide

/-- C8: the TSMT$GraphArc cost setter stores any finite value ≥ 0 and
silently rejects negative, NaN and infinite values, retaining the prior
cost; no error is raised (the setter is a total function). -/
theorem arc_cost_validation (a : GArc) (q : ℚ) :
    (0 ≤ q → arcAssignCost a (JSNum.fin q) = { a with cost := JSNum.fin q }) ∧
    (q < 0 → arcAssignCost a (JSNum.fin q) = a) ∧
    arcAssignCost a JSNum.nan = a ∧
    arcAssignCost a JSNum.inf = a ∧
    arcAssignCost a JSNum.ninf = a := by
  refine ⟨fun hq => ?_, fun hq => ?_, ?_, ?_, ?_⟩
  · simp [arcAssignCost, setCost, jsIsNaN, jsIsFinite, jsGeZero, hq]
  · simp [arcAssignCost, setCost, jsIsNaN, jsIsFinite, jsGeZero, not_le.mpr hq]
  · simp [arcAssignCost, setCost, jsIsNaN]
  · simp [arcAssignCost, setCost, jsIsNaN, jsIsFinite]
  · simp [arcAssignCost, setCost, jsIsNaN, jsIsFinite]

/-- Witness for C8: accept 5, reject -3 on a concrete arc. -/
theorem arc_cost_validation_witness :
    arcAssignCost junkArc (JSNum.fin 5) = { junkArc with cost := JSNum.fin 5 } ∧
    arcAssignCost junkArc (JSNum.fin (-3)) = junkArc :=
  ⟨(arc_cost_validation junkArc 5).1 (by norm_num),
   (arc_cost_validation junkArc (-3)).2.1 (by norm_num)⟩

/-- The per-target fold of a multi-target edge bumps the addEdge call
counter once per named target. -/
theorem fromList_inner_count (cache : List (String × Nat)) (fromRef : Option Nat)
    (ids : List String) (acc : GraphState String × Nat) :
    (ids.foldl (fun acc2 toId =>
        (addEdge acc2.1 fromRef (cacheLookup cache toId) (JSNum.fin 1) acc2.1.heap.nodes.length,
         acc2.2 + 1)) acc).2 = acc.2 + ids.length := by
  induction ids generalizing acc with
  | nil => simp
  | cons x xs ih =>
    rw [List.foldl_cons, ih]
    simp
    omega

/-- The edges fold of graphFromList makes one addEdge call for a string
target and one call per element for an array target. -/
theorem fromList_edge_count (cache : List (String × Nat)) (es : List IGraphEdge)
    (acc : GraphState String × Nat) :
    (es.foldl (fromListAddEdge cache) acc).2 =
      acc.2 + (es.map fun e => match e.toIds with | .inl _ => 1 | .inr l => l.length).sum := by
  induction es generalizing acc with
  | nil => simp
  | cons e es ih =>
    rw [List.foldl_cons, ih]
    cases he : e.toIds with
    | inl s =>
      simp [fromListAddEdge, he]
      omega
    | inr l =>
      simp [fromListAddEdge, he, fromList_inner_count]
      omega

/-- C9: graphFromList returns the freshly constructed empty graph (size 0,
no node-list head, empty toArray) for an absent description, and for every
description it performs exactly one graph.addEdge call per named target:
one for a single-string to field, one per element for an array to field. -/
theorem graphFromList_contract (data : GraphList) :
    (graphFromList none).1.size = 0 ∧
    (graphFromList none).1.nodeList = none ∧
    toArray (graphFromList none).1 10 = [] ∧
    (graphFromList (some data)).2 =
      (data.edges.map fun e => match e.toIds with | .inl _ => 1 | .inr l => l.length).sum := by
  refine ⟨rfl, rfl, rfl, ?_⟩
  show (data.edges.foldl (fromListAddEdge _) (_, 0)).2 = _
  rw [fromList_edge_count]
  simp

/-- DFS depends on the start argument only through resolveStart. -/
theorem DFS_start_congr {V : Type} [DecidableEq V] (g : GraphState V) (s1 s2 : StartArg V)
    (fuel : Nat) (h : resolveStart g s1 fuel = resolveStart g s2 fuel) :
    DFS g s1 fuel = DFS g s2 fuel := by
  unfold DFS
  rw [h]

/-- BFS depends on the start argument only through resolveStart. -/
theorem BFS_start_congr {V : Type} [DecidableEq V] (g : GraphState V) (s1 s2 : StartArg V)
    (fuel : Nat) (h : resolveStart g s1 fuel = resolveStart g s2 fuel) :
    BFS g s1 fuel = BFS g s2 fuel := by
  unfold BFS
  rw [h]

/-- C7: for DFS and BFS alike — an empty graph yields an empty sequence; a
one-node graph yields [_nodeList] whatever the start argument is; an absent
start argument behaves like passing the graph's first node; a value start
argument behaves like passing the node findNode resolves it to; and when
findNode fails the result is the empty sequence. -/
theorem traversal_outliers_and_resolution {V : Type} [DecidableEq V] (g : GraphState V)
    (s : StartArg V) (v : V) (r : Nat) (fuel : Nat) :
    (g.size = 0 → DFS g s fuel = (g, []) ∧ BFS g s fuel = (g, [])) ∧
    (g.size = 1 → DFS g s fuel = (g, [g.nodeList]) ∧ BFS g s fuel = (g, [g.nodeList])) ∧
    (g.nodeList = some r →
      DFS g StartArg.nullish fuel = DFS g (StartArg.nodeRef r) fuel ∧
      BFS g StartArg.nullish fuel = BFS g (StartArg.nodeRef r) fuel) ∧
    (findNode g v fuel = some r →
      DFS g (StartArg.value v) fuel = DFS g (StartArg.nodeRef r) fuel ∧
      BFS g (StartArg.value v) fuel = BFS g (StartArg.nodeRef r) fuel) ∧
    (findNode g v fuel = none → g.size ≠ 1 →
      DFS g (StartArg.value v) fuel = (g, []) ∧ BFS g (StartArg.value v) fuel = (g, [])) := by
  refine ⟨fun h0 => ?_, fun h1 => ?_, fun hr => ?_, fun hv => ?_, fun hv h1 => ?_⟩
  · exact ⟨by simp [DFS, h0], by simp [BFS, h0]⟩
  · exact ⟨by simp [DFS, h1], by simp [BFS, h1]⟩
  · exact ⟨DFS_start_congr g _ _ fuel (by simp [resolveStart, hr]),
      BFS_start_congr g _ _ fuel (by simp [resolveStart, hr])⟩
  · exact ⟨DFS_start_congr g _ _ fuel (by simp [resolveStart, hv]),
      BFS_start_congr g _ _ fuel (by simp [resolveStart, hv])⟩
  · by_cases h0 : g.size = 0
    · exact ⟨by simp [DFS, h0], by simp [BFS, h0]⟩
    · exact ⟨by simp [DFS, h0, h1, resolveStart, hv], by simp [BFS, h0, h1, resolveStart, hv]⟩

/-- Witness for C7: the value 5 is in no node of c2Graph, so DFS(5) and
BFS(5) return the empty sequence and do not touch the graph. -/
theorem traversal_outliers_witness :
    DFS c2Graph (StartArg.value 5) 10 = (c2Graph, []) ∧
    BFS c2Graph (StartArg.value 5) 10 = (c2Graph, []) :=
  (traversal_outliers_and_resolution c2Graph StartArg.nullish 5 0 10).2.2.2.2
    (by decide) (by decide)

section UnlinkFrame

variable {V : Type} [DecidableEq V]

theorem node_nodeSetArcList_ne (h : Heap V) (i : Nat) (v : Option Nat) (m : Nat)
    (hne : m ≠ i) : (nodeSetArcList h i v).node m = h.node m := by
  cases v with
  | none => rfl
  | some x =>
    simp only [nodeSetArcList, heap_node_set]
    rw [if_neg]
    intro hc
    exact hne hc.1.symm

theorem isSome_arcList_nodeSetArcList (h : Heap V) (i : Nat) (v : Option Nat) (m : Nat)
    (hs : ((h.node m).arcList).isSome = true) :
    (((nodeSetArcList h i v).node m).arcList).isSome = true := by
  cases v with
  | none => exact hs
  | some x =>
    simp only [nodeSetArcList, heap_node_set]
    split
    · simp
    · exact hs

theorem node_matchArcSetNext (h : Heap V) (o : Option Nat) (x : Option Nat) (m : Nat) :
    ((match o with | some p => arcSetNext h p x | none => h).node m) = h.node m := by
  cases o with
  | none => rfl
  | some p => exact node_arcSetNext h p x m

theorem node_matchArcSetPrev (h : Heap V) (o : Option Nat) (x : Option Nat) (m : Nat) :
    ((match o with | some hk => arcSetPrev h hk x | none => h).node m) = h.node m := by
  cases o with
  | none => rfl
  | some hk => exact node_arcSetPrev h hk x m

theorem node_unlinkInnerStep (node node1 a1 : Nat) (h : Heap V) (m : Nat) (hm : m ≠ node1) :
    (unlinkInnerStep node node1 a1 h).node m = h.node m := by
  simp only [unlinkInnerStep]
  by_cases ht : (h.arc a1).target = node
  · rw [if_pos ht]
    split
    · rw [node_nodeSetArcList_ne _ _ _ _ hm, node_matchArcSetPrev, node_matchArcSetNext]
    · rw [node_matchArcSetPrev, node_matchArcSetNext]
  · rw [if_neg ht]

theorem isSome_arcList_unlinkInnerStep (node node1 a1 : Nat) (h : Heap V) (m : Nat)
    (hs : ((h.node m).arcList).isSome = true) :
    (((unlinkInnerStep node node1 a1 h).node m).arcList).isSome = true := by
  simp only [unlinkInnerStep]
  by_cases ht : (h.arc a1).target = node
  · rw [if_pos ht]
    split
    · apply isSome_arcList_nodeSetArcList
      rw [node_matchArcSetPrev, node_matchArcSetNext]
      exact hs
    · rw [node_matchArcSetPrev, node_matchArcSetNext]
      exact hs
  · rw [if_neg ht]
    exact hs

theorem node_unlinkInner (node node1 : Nat) (fuel : Nat) (h : Heap V) (ao : Option Nat)
    (m : Nat) (hm : m ≠ node1) :
    (unlinkInner node node1 fuel h ao).node m = h.node m := by
  induction fuel generalizing h ao with
  | zero => cases ao <;> rfl
  | succ f ih =>
    cases ao with
    | none => rfl
    | some a1 =>
      show (unlinkInner node node1 f (unlinkInnerStep node node1 a1 h) ((h.arc a1).next)).node m
          = h.node m
      rw [ih, node_unlinkInnerStep _ _ _ _ _ hm]

theorem isSome_arcList_unlinkInner (node node1 : Nat) (fuel : Nat) (h : Heap V)
    (ao : Option Nat) (m : Nat) (hs : ((h.node m).arcList).isSome = true) :
    (((unlinkInner node node1 fuel h ao).node m).arcList).isSome = true := by
  induction fuel generalizing h ao with
  | zero => cases ao <;> exact hs
  | succ f ih =>
    cases ao with
    | none => exact hs
    | some a1 =>
      show (((unlinkInner node node1 f (unlinkInnerStep node node1 a1 h)
          ((h.arc a1).next)).node m).arcList).isSome = true
      exact ih _ _ (isSome_arcList_unlinkInnerStep _ _ _ _ _ hs)

theorem node_unlinkOuterStep (node innerFuel a0 : Nat) (h : Heap V) (m : Nat)
    (hm : m ≠ node) (hm1 : m ≠ (h.arc a0).target) :
    ((unlinkOuterStep node innerFuel a0 h).1).node m = h.node m := by
  simp only [unlinkOuterStep]
  split
  · rw [node_nodeSetArcList_ne _ _ _ _ hm, node_matchArcSetPrev, node_matchArcSetNext,
      node_unlinkInner _ _ _ _ _ _ hm1]
  · rw [node_matchArcSetPrev, node_matchArcSetNext, node_unlinkInner _ _ _ _ _ _ hm1]

theorem isSome_arcList_unlinkOuterStep (node innerFuel a0 : Nat) (h : Heap V) (m : Nat)
    (hs : ((h.node m).arcList).isSome = true) :
    ((((unlinkOuterStep node innerFuel a0 h).1).node m).arcList).isSome = true := by
  simp only [unlinkOuterStep]
  split
  · apply isSome_arcList_nodeSetArcList
    rw [node_matchArcSetPrev, node_matchArcSetNext]
    exact isSome_arcList_unlinkInner _ _ _ _ _ _ hs
  · rw [node_matchArcSetPrev, node_matchArcSetNext]
    exact isSome_arcList_unlinkInner _ _ _ _ _ _ hs

theorem node_unlinkOuter (node innerFuel : Nat) (fuel : Nat) (h : Heap V) (ao : Option Nat)
    (m : Nat) (hm : m ≠ node) (hg : m ∉ (unlinkOuter node innerFuel fuel h ao).2) :
    ((unlinkOuter node innerFuel fuel h ao).1).node m = h.node m := by
  induction fuel generalizing h ao with
  | zero => cases ao <;> rfl
  | succ f ih =>
    cases ao with
    | none => rfl
    | some a0 =>
      have hexp : unlinkOuter node innerFuel (f + 1) h (some a0) =
          ((unlinkOuter node innerFuel f (unlinkOuterStep node innerFuel a0 h).1
            (unlinkOuterStep node innerFuel a0 h).2).1,
           (h.arc a0).target ::
            (unlinkOuter node innerFuel f (unlinkOuterStep node innerFuel a0 h).1
              (unlinkOuterStep node innerFuel a0 h).2).2) := rfl
      rw [hexp] at hg ⊢
      simp only [List.mem_cons, not_or] at hg
      rw [ih _ _ hg.2, node_unlinkOuterStep _ _ _ _ _ hm (fun he => hg.1 he)]

theorem isSome_arcList_unlinkOuter (node innerFuel : Nat) (fuel : Nat) (h : Heap V)
    (ao : Option Nat) (m : Nat) (hs : ((h.node m).arcList).isSome = true) :
    ((((unlinkOuter node innerFuel fuel h ao).1).node m).arcList).isSome = true := by
  induction fuel generalizing h ao with
  | zero => cases ao <;> exact hs
  | succ f ih =>
    cases ao with
    | none => exact hs
    | some a0 =>
      show ((((unlinkOuter node innerFuel f (unlinkOuterStep node innerFuel a0 h).1
          (unlinkOuterStep node innerFuel a0 h).2).1).node m).arcList).isSome = true
      exact ih _ _ (isSome_arcList_unlinkOuterStep _ _ _ _ _ hs)

theorem arcList_nodeSetNext (h : Heap V) (i : Nat) (v : Option Nat) (m : Nat) :
    ((nodeSetNext h i v).node m).arcList = (h.node m).arcList := by
  cases v with
  | none => rfl
  | some x =>
    simp only [nodeSetNext, heap_node_set]
    split
    · next hc => rw [hc.1]
    · rfl

theorem arcList_nodeSetPrev (h : Heap V) (i : Nat) (v : Option Nat) (m : Nat) :
    ((nodeSetPrev h i v).node m).arcList = (h.node m).arcList := by
  cases v with
  | none => rfl
  | some x =>
    simp only [nodeSetPrev, heap_node_set]
    split
    · next hc => rw [hc.1]
    · rfl

theorem arcList_matchNodeSetNext (h : Heap V) (o : Option Nat) (x : Option Nat) (m : Nat) :
    (((match o with | some p => nodeSetNext h p x | none => h).node m)).arcList
      = (h.node m).arcList := by
  cases o with
  | none => rfl
  | some p => exact arcList_nodeSetNext h p x m

theorem arcList_matchNodeSetPrev (h : Heap V) (o : Option Nat) (x : Option Nat) (m : Nat) :
    (((match o with | some nx => nodeSetPrev h nx x | none => h).node m)).arcList
      = (h.node m).arcList := by
  cases o with
  | none => rfl
  | some nx => exact arcList_nodeSetPrev h nx x m

/-- C4 (amended): removeNode(n) attempts incoming-arc removal only inside
the nodes that n itself points to (the ghost target list of the __unlink
walk): the arc-list head of any other node m ≠ n is left exactly as it was —
so a one-way incoming arc m → n survives as a dangling reference — and no
node's arc-list head is ever cleared from present to absent by removeNode
(in particular n's own head stays present whenever n had an outgoing arc,
because the final node.arcList = null write is rejected by the setter). -/
theorem removeNode_heap (g : GraphState V) (n : Nat) (fuel : Nat) :
    (removeNode g (.val n) fuel).heap = removeNodeSplice (unlink n fuel g.heap).1 n := by
  simp only [removeNode, apply_ite GraphState.heap, ite_self]

theorem removeNodeSplice_arcList (h : Heap V) (n : Nat) (m : Nat) :
    ((removeNodeSplice h n).node m).arcList = (h.node m).arcList := by
  simp only [removeNodeSplice]
  rw [arcList_matchNodeSetPrev, arcList_matchNodeSetNext]

theorem removeNode_arcList_frame (g : GraphState V) (n : Nat) (fuel : Nat) (m : Nat) :
    (((g.heap.node m).arcList).isSome = true →
      (((removeNode g (.val n) fuel).heap.node m).arcList).isSome = true) ∧
    (m ≠ n → m ∉ (unlink n fuel g.heap).2 →
      ((removeNode g (.val n) fuel).heap.node m).arcList = (g.heap.node m).arcList) := by
  constructor
  · intro hs
    rw [removeNode_heap, removeNodeSplice_arcList]
    exact isSome_arcList_unlinkOuter n fuel fuel g.heap ((g.heap.node n).arcList) m hs
  · intro hmn hg
    rw [removeNode_heap, removeNodeSplice_arcList]
    show (((unlinkOuter n fuel fuel g.heap ((g.heap.node n).arcList)).1).node m).arcList
        = (g.heap.node m).arcList
    rw [node_unlinkOuter n fuel fuel g.heap ((g.heap.node n).arcList) m hmn hg]

/-- Witness for C4's amended theorem: in c4Graph, node 0 is not a target of
any arc of node 1 (node 1 has no outgoing arcs at all), so removeNode(1)
leaves node 0's arc-list head untouched — the dangling arc 0 → 1 survives. -/
theorem removeNode_arcList_frame_witness :
    ((removeNode c4Graph (.val 1) 10).heap.node 0).arcList = (c4Graph.heap.node 0).arcList :=
  (removeNode_arcList_frame c4Graph 1 10 0).2 (by decide) (by decide)

end UnlinkFrame

section NoDuplicates

variable {V : Type} [DecidableEq V]

theorem wf_clearMarksFrom (fuel : Nat) (h : Heap V) (ao : Option Nat) (hw : WFHeap h) :
    WFHeap (clearMarksFrom fuel h ao) := by
  induction fuel generalizing h ao with
  | zero => cases ao <;> exact hw
  | succ f ih =>
    cases ao with
    | none => exact hw
    | some n =>
      show WFHeap (clearMarksFrom f (nodeSetMarked h n false) (((nodeSetMarked h n false).node n).next))
      exact ih _ _ (wf_nodeSetMarked h n false hw)

theorem dfsArcLoop_inv (visit : Heap V → Nat → Heap V × List Nat)
    (Hw : ∀ h0 n, WFHeap h0 → n < h0.nodes.length → WFHeap (visit h0 n).1)
    (Hle : ∀ h0 n, WFHeap h0 → n < h0.nodes.length → MarkLe h0 (visit h0 n).1)
    (Hmk : ∀ h0 n, WFHeap h0 → n < h0.nodes.length →
      ∀ x ∈ (visit h0 n).2, (((visit h0 n).1).node x).marked = true)
    (Hfr : ∀ h0 n, WFHeap h0 → n < h0.nodes.length →
      ∀ x ∈ (visit h0 n).2, x = n ∨ (h0.node x).marked = false)
    (Hnd : ∀ h0 n, WFHeap h0 → n < h0.nodes.length → ((visit h0 n).2).Nodup) :
    ∀ (fa : Nat) (h : Heap V) (ao : Option Nat), WFHeap h →
      WFHeap (dfsArcLoop visit fa h ao).1 ∧
      MarkLe h (dfsArcLoop visit fa h ao).1 ∧
      (∀ x ∈ (dfsArcLoop visit fa h ao).2,
        (((dfsArcLoop visit fa h ao).1).node x).marked = true) ∧
      (∀ x ∈ (dfsArcLoop visit fa h ao).2, (h.node x).marked = false) ∧
      ((dfsArcLoop visit fa h ao).2).Nodup := by
  intro fa
  induction fa with
  | zero =>
    intro h ao hw
    cases ao with
    | none => exact ⟨hw, markLe_refl h, by simp [dfsArcLoop], by simp [dfsArcLoop], by simp [dfsArcLoop]⟩
    | some a => exact ⟨hw, markLe_refl h, by simp [dfsArcLoop], by simp [dfsArcLoop], by simp [dfsArcLoop]⟩
  | succ f ih =>
    intro h ao hw
    cases ao with
    | none => exact ⟨hw, markLe_refl h, by simp [dfsArcLoop], by simp [dfsArcLoop], by simp [dfsArcLoop]⟩
    | some a =>
      have hm : (h.arc a).target < h.nodes.length := wf_target_lt hw a
      show _ ∧ _ ∧ _ ∧ _ ∧ _
      cases hmk : (h.node ((h.arc a).target)).marked with
      | true =>
        have hstep : dfsArcLoop visit (f + 1) h (some a) =
            ((dfsArcLoop visit f h ((h.arc a).next)).1,
             [] ++ (dfsArcLoop visit f h ((h.arc a).next)).2) := by
          simp [dfsArcLoop, hmk]
        rw [hstep]
        obtain ⟨w2, l2, m2, f2, n2⟩ := ih h ((h.arc a).next) hw
        exact ⟨w2, l2, by simpa using m2, by simpa using f2, by simpa using n2⟩
      | false =>
        have hstep : dfsArcLoop visit (f + 1) h (some a) =
            ((dfsArcLoop visit f (visit h ((h.arc a).target)).1
                (((visit h ((h.arc a).target)).1.arc a).next)).1,
             (visit h ((h.arc a).target)).2 ++
              (dfsArcLoop visit f (visit h ((h.arc a).target)).1
                (((visit h ((h.arc a).target)).1.arc a).next)).2) := by
          simp [dfsArcLoop, hmk]
        rw [hstep]
        have w1 := Hw h ((h.arc a).target) hw hm
        have l1 := Hle h ((h.arc a).target) hw hm
        have m1 := Hmk h ((h.arc a).target) hw hm
        have f1 := Hfr h ((h.arc a).target) hw hm
        have n1 := Hnd h ((h.arc a).target) hw hm
        obtain ⟨w2, l2, m2, f2, n2⟩ :=
          ih (visit h ((h.arc a).target)).1 (((visit h ((h.arc a).target)).1.arc a).next) w1
        refine ⟨w2, markLe_trans l1 l2, ?_, ?_, ?_⟩
        · intro x hx
          rcases List.mem_append.mp hx with hx1 | hx2
          · exact l2 x (m1 x hx1)
          · exact m2 x hx2
        · intro x hx
          rcases List.mem_append.mp hx with hx1 | hx2
          · rcases f1 x hx1 with rfl | hfr
            · exact hmk
            · exact hfr
          · cases hcl : (h.node x).marked with
            | false => rfl
            | true => exact absurd (l1 x hcl) (by simp [f2 x hx2])
        · refine List.Nodup.append n1 n2 ?_
          intro x hx1 hx2
          have : ((visit h ((h.arc a).target)).1.node x).marked = true := m1 x hx1
          simp [f2 x hx2] at this


theorem dfsArcLoop_none (visit : Heap V → Nat → Heap V × List Nat) (fa : Nat) (h : Heap V) :
    dfsArcLoop visit fa h none = (h, []) := by
  cases fa <;> rfl

theorem DFSTraversal_inv :
    ∀ (fd : Nat) (h : Heap V) (n : Nat), WFHeap h → n < h.nodes.length →
      WFHeap (DFSTraversal fd h n).1 ∧
      MarkLe h (DFSTraversal fd h n).1 ∧
      (∀ x ∈ (DFSTraversal fd h n).2, (((DFSTraversal fd h n).1).node x).marked = true) ∧
      (∀ x ∈ (DFSTraversal fd h n).2, x = n ∨ (h.node x).marked = false) ∧
      ((DFSTraversal fd h n).2).Nodup := by
  intro fd
  induction fd with
  | zero =>
    intro h n hw hn
    exact ⟨hw, markLe_refl h, by simp [DFSTraversal], by simp [DFSTraversal],
      by simp [DFSTraversal]⟩
  | succ f ih =>
    intro h n hw hn
    have hstep : DFSTraversal (f + 1) h n =
        ((dfsArcLoop (DFSTraversal f) (nodeSetMarked h n true).arcs.length
            (nodeSetMarked h n true) (((nodeSetMarked h n true).node n).arcList)).1,
         n :: (dfsArcLoop (DFSTraversal f) (nodeSetMarked h n true).arcs.length
            (nodeSetMarked h n true) (((nodeSetMarked h n true).node n).arcList)).2) := rfl
    rw [hstep]
    have hw1 : WFHeap (nodeSetMarked h n true) := wf_nodeSetMarked h n true hw
    obtain ⟨w2, l2, m2, f2, n2⟩ :=
      dfsArcLoop_inv (DFSTraversal f)
        (fun h0 m hw0 hm0 => (ih h0 m hw0 hm0).1)
        (fun h0 m hw0 hm0 => (ih h0 m hw0 hm0).2.1)
        (fun h0 m hw0 hm0 => (ih h0 m hw0 hm0).2.2.1)
        (fun h0 m hw0 hm0 => (ih h0 m hw0 hm0).2.2.2.1)
        (fun h0 m hw0 hm0 => (ih h0 m hw0 hm0).2.2.2.2)
        ((nodeSetMarked h n true).arcs.length) (nodeSetMarked h n true)
        (((nodeSetMarked h n true).node n).arcList) hw1
    have hself : ((nodeSetMarked h n true).node n).marked = true :=
      marked_nodeSetMarked_self h n true hn
    refine ⟨w2, markLe_trans (markLe_setMarkedTrue h n) l2, ?_, ?_, ?_⟩
    · intro x hx
      rcases List.mem_cons.mp hx with rfl | hx2
      · exact l2 x hself
      · exact m2 x hx2
    · intro x hx
      rcases List.mem_cons.mp hx with rfl | hx2
      · exact Or.inl rfl
      · right
        cases hcl : (h.node x).marked with
        | false => rfl
        | true => exact absurd (markLe_setMarkedTrue h n x hcl) (by simp [f2 x hx2])
    · refine List.nodup_cons.mpr ⟨?_, n2⟩
      intro hmem
      exact absurd hself (by simp [f2 n hmem])

theorem DFSTraversal_out_of_range (fd : Nat) (h : Heap V) (n : Nat)
    (hn : ¬ n < h.nodes.length) :
    (DFSTraversal fd h n).2 = [] ∨ (DFSTraversal fd h n).2 = [n] := by
  cases fd with
  | zero => exact Or.inl rfl
  | succ f =>
    right
    have hstep : DFSTraversal (f + 1) h n =
        ((dfsArcLoop (DFSTraversal f) (nodeSetMarked h n true).arcs.length
            (nodeSetMarked h n true) (((nodeSetMarked h n true).node n).arcList)).1,
         n :: (dfsArcLoop (DFSTraversal f) (nodeSetMarked h n true).arcs.length
            (nodeSetMarked h n true) (((nodeSetMarked h n true).node n).arcList)).2) := rfl
    rw [hstep]
    have hid : nodeSetMarked h n true = h := nodeSetMarked_of_out_of_range h n true hn
    have harc : ((nodeSetMarked h n true).node n).arcList = none := by
      rw [hid, node_out_of_range h n hn]
      rfl
    rw [harc, dfsArcLoop_none]

theorem bfsArcLoop_none (fa : Nat) (h : Heap V) (q : List Nat) :
    bfsArcLoop fa h none q = (h, q) := by
  cases fa <;> rfl

theorem bfsArcLoop_inv :
    ∀ (fa : Nat) (h : Heap V) (ao : Option Nat) (q S : List Nat), WFHeap h →
      (∀ x ∈ S, (h.node x).marked = true) → (∀ x ∈ q, (h.node x).marked = true) →
      (S ++ q).Nodup →
      WFHeap (bfsArcLoop fa h ao q).1 ∧
      MarkLe h (bfsArcLoop fa h ao q).1 ∧
      (∀ x ∈ (bfsArcLoop fa h ao q).2, ((bfsArcLoop fa h ao q).1.node x).marked = true) ∧
      (S ++ (bfsArcLoop fa h ao q).2).Nodup := by
  intro fa
  induction fa with
  | zero =>
    intro h ao q S hw hS hq hnd
    cases ao <;> exact ⟨hw, markLe_refl h, hq, hnd⟩
  | succ f ih =>
    intro h ao q S hw hS hq hnd
    cases ao with
    | none => exact ⟨hw, markLe_refl h, hq, hnd⟩
    | some a =>
      have hm : (h.arc a).target < h.nodes.length := wf_target_lt hw a
      cases hmk : (h.node ((h.arc a).target)).marked with
      | true =>
        have hstep : bfsArcLoop (f + 1) h (some a) q = bfsArcLoop f h ((h.arc a).next) q := by
          simp [bfsArcLoop, hmk]
        rw [hstep]
        exact ih h ((h.arc a).next) q S hw hS hq hnd
      | false =>
        have hstep : bfsArcLoop (f + 1) h (some a) q =
            bfsArcLoop f (nodeSetMarked h ((h.arc a).target) true)
              (((nodeSetMarked h ((h.arc a).target) true).arc a).next)
              (q ++ [(h.arc a).target]) := by
          simp [bfsArcLoop, hmk]
        rw [hstep]
        have hle1 := markLe_setMarkedTrue h ((h.arc a).target)
        have hw1 := wf_nodeSetMarked h ((h.arc a).target) true hw
        have hS1 : ∀ x ∈ S, ((nodeSetMarked h ((h.arc a).target) true).node x).marked = true :=
          fun x hx => hle1 x (hS x hx)
        have hq1 : ∀ x ∈ q ++ [(h.arc a).target],
            ((nodeSetMarked h ((h.arc a).target) true).node x).marked = true := by
          intro x hx
          rcases List.mem_append.mp hx with hx1 | hx2
          · exact hle1 x (hq x hx1)
          · have hxe : x = (h.arc a).target := by simpa using hx2
            subst hxe
            exact marked_nodeSetMarked_self h _ true hm
        have hnd1 : (S ++ (q ++ [(h.arc a).target])).Nodup := by
          rw [← List.append_assoc]
          refine List.Nodup.append hnd (by simp) ?_
          intro x hx hx2
          have hx3 : x = (h.arc a).target := by simpa using hx2
          subst hx3
          rcases List.mem_append.mp hx with hxS | hxq
          · exact absurd (hS _ hxS) (by simp [hmk])
          · exact absurd (hq _ hxq) (by simp [hmk])
        obtain ⟨w2, l2, m2, n2⟩ := ih _ _ _ S hw1 hS1 hq1 hnd1
        exact ⟨w2, markLe_trans hle1 l2, m2, n2⟩

theorem bfsQueueLoop_empty (afuel fq : Nat) (h : Heap V) (acc : List Nat) :
    bfsQueueLoop afuel fq h [] acc = (h, acc) := by
  cases fq <;> rfl

theorem bfsQueueLoop_nodup :
    ∀ (fq afuel : Nat) (h : Heap V) (q acc : List Nat), WFHeap h →
      (∀ x ∈ acc ++ q, (h.node x).marked = true) → (acc ++ q).Nodup →
      ((bfsQueueLoop afuel fq h q acc).2).Nodup := by
  intro fq
  induction fq with
  | zero =>
    intro afuel h q acc hw hmk hnd
    exact (List.nodup_append.mp hnd).1
  | succ f ih =>
    intro afuel h q acc hw hmk hnd
    cases q with
    | nil =>
      rw [bfsQueueLoop_empty]
      exact (List.nodup_append.mp hnd).1
    | cons n rest =>
      have hstep : bfsQueueLoop afuel (f + 1) h (n :: rest) acc =
          bfsQueueLoop afuel f (bfsArcLoop afuel h ((h.node n).arcList) rest).1
            (bfsArcLoop afuel h ((h.node n).arcList) rest).2 (acc ++ [n]) := rfl
      rw [hstep]
      have hS : ∀ x ∈ acc ++ [n], (h.node x).marked = true := by
        intro x hx
        rcases List.mem_append.mp hx with hx1 | hx2
        · exact hmk x (List.mem_append.mpr (Or.inl hx1))
        · have hxe : x = n := by simpa using hx2
          rw [hxe]
          exact hmk n (by simp)
      have hq : ∀ x ∈ rest, (h.node x).marked = true := fun x hx => hmk x (by simp [hx])
      have hnd1 : ((acc ++ [n]) ++ rest).Nodup := by
        rw [← List.append_cons]
        exact hnd
      obtain ⟨w2, l2, m2, n2⟩ :=
        bfsArcLoop_inv afuel h ((h.node n).arcList) rest (acc ++ [n]) hw hS hq hnd1
      refine ih afuel _ _ _ w2 ?_ n2
      intro x hx
      rcases List.mem_append.mp hx with hx1 | hx2
      · exact l2 x (hS x hx1)
      · exact m2 x hx2

theorem BFSTraversal_nodup (fuel : Nat) (h : Heap V) (n : Nat) (hw : WFHeap h) :
    ((BFSTraversal fuel h n).2).Nodup := by
  by_cases hn : n < h.nodes.length
  · unfold BFSTraversal
    apply bfsQueueLoop_nodup _ _ _ _ _ (wf_nodeSetMarked h n true hw)
    · intro x hx
      have hxe : x = n := by simpa using hx
      rw [hxe]
      exact marked_nodeSetMarked_self h n true hn
    · simp
  · unfold BFSTraversal
    rw [nodeSetMarked_of_out_of_range h n true hn]
    have harc : (h.node n).arcList = none := by
      rw [node_out_of_range h n hn]
      rfl
    cases fuel with
    | zero => simp [bfsQueueLoop]
    | succ f =>
      have hstep : bfsQueueLoop h.arcs.length (f + 1) h [n] [] =
          bfsQueueLoop h.arcs.length f (bfsArcLoop h.arcs.length h ((h.node n).arcList) []).1
            (bfsArcLoop h.arcs.length h ((h.node n).arcList) []).2 ([] ++ [n]) := rfl
      rw [hstep, harc, bfsArcLoop_none, bfsQueueLoop_empty]
      simp

/-- C10: a single DFS call and a single BFS call each list every node at
most once: on any well-formed heap the traversal sequences are duplicate
free, because a node is marked before or at the moment it is recorded and
marked nodes are never revisited. -/
theorem traversal_no_duplicates (g : GraphState V) (s : StartArg V) (fuel : Nat)
    (hw : WFHeap g.heap) :
    ((DFS g s fuel).2).Nodup ∧ ((BFS g s fuel).2).Nodup := by
  constructor
  · by_cases h0 : g.size = 0
    · simp [DFS, h0]
    · by_cases h1 : g.size = 1
      · simp [DFS, h0, h1]
      · cases hr : resolveStart g s fuel with
        | none => simp [DFS, h0, h1, hr]
        | some root =>
          have hres : (DFS g s fuel).2 =
              ((DFSTraversal fuel (clearMarksFrom fuel g.heap (some root)) root).2).map
                Option.some := by
            simp [DFS, h0, h1, hr]
          rw [hres]
          apply List.Nodup.map (Option.some_injective Nat)
          have hw1 : WFHeap (clearMarksFrom fuel g.heap (some root)) :=
            wf_clearMarksFrom fuel g.heap (some root) hw
          by_cases hroot : root < (clearMarksFrom fuel g.heap (some root)).nodes.length
          · exact (DFSTraversal_inv fuel _ root hw1 hroot).2.2.2.2
          · rcases DFSTraversal_out_of_range fuel _ root hroot with he | he <;> simp [he]
  · by_cases h0 : g.size = 0
    · simp [BFS, h0]
    · by_cases h1 : g.size = 1
      · simp [BFS, h0, h1]
      · cases hr : resolveStart g s fuel with
        | none => simp [BFS, h0, h1, hr]
        | some root =>
          have hres : (BFS g s fuel).2 =
              ((BFSTraversal fuel (clearMarksFrom fuel g.heap (some root)) root).2).map
                Option.some := by
            simp [BFS, h0, h1, hr]
          rw [hres]
          apply List.Nodup.map (Option.some_injective Nat)
          have hw1 : WFHeap (clearMarksFrom fuel g.heap (some root)) :=
            wf_clearMarksFrom fuel g.heap (some root) hw
          exact BFSTraversal_nodup fuel _ root hw1

/-- Witness for C10 on the concrete scenario graph. -/
theorem traversal_no_duplicates_witness :
    ((DFS c5Graph StartArg.nullish 20).2).Nodup ∧
    ((BFS c5Graph StartArg.nullish 20).2).Nodup :=
  traversal_no_duplicates c5Graph StartArg.nullish 20 (by decide)

end NoDuplicates

end TSGraph
